import Mathlib

/-!
Verification of the SSM password manager (Credential Manager + Store Client)
against its natural-language specification.

The manager operations are shallow embeddings of the Python methods in
`ssm_password_manager/password_manager.py`; the remote parameter store is
modelled as an association list from full parameter names to records, with
the put/get/delete/describe semantics the code relies on (reject-on-exists
for strict create, overwrite-or-create for update, decrypt-on-get, tag
attachment).  Randomness for password generation is modelled by an explicit
stream `r : Nat → Nat` of draws, one per character position.  Transport and
authorization failures of the remote store are not modelled: the store is
deterministic, so the `AWSError` branches of the code are present in the
definitions but unreachable.
-/

deriving instance DecidableEq for Except

/-- Error taxonomy of the manager, from `ssm_password_manager/exceptions.py`:
`ValidationError`, `LoginNotFoundError`, `LoginAlreadyExistsError`, `AWSError`,
each carrying its message string. -/
inductive PMError where
  | validation (msg : String)
  | notFound (msg : String)
  | alreadyExists (msg : String)
  | aws (msg : String)
deriving DecidableEq

/-- The message carried by a manager error (Python `str(e)`). -/
def PMError.message : PMError → String
  | .validation m => m
  | .notFound m => m
  | .alreadyExists m => m
  | .aws m => m

/-- A stored parameter record: SecureString value, description, tags and the
store-managed version counter.  The last-modified timestamp is wall-clock
state of the remote store and is not modelled. -/
structure ParamRecord where
  value : String
  description : String
  tags : List (String × String)
  version : Nat
deriving DecidableEq

/-- The remote parameter store: full parameter name to record. -/
abbrev Store := List (String × ParamRecord)

/-- Does the store hold a parameter with this exact name? -/
def containsKey : Store → String → Bool
  | [], _ => false
  | kv :: rest, name => kv.1 = name || containsKey rest name

/-- Look up a parameter record by exact name. -/
def lookupParam : Store → String → Option ParamRecord
  | [], _ => none
  | kv :: rest, name => if kv.1 = name then some kv.2 else lookupParam rest name

/-- The names of all stored parameters. -/
def storeKeys (s : Store) : List String := s.map Prod.fst

/-- Errors of the remote store visible to the manager (`ClientError` codes
`ParameterAlreadyExists` and `ParameterNotFound`). -/
inductive SsmError where
  | parameterAlreadyExists
  | parameterNotFound
deriving DecidableEq

/-- The store error rendered as text (for the AWSError pass-through arms). -/
def ssmErrorText : SsmError → String
  | .parameterAlreadyExists => "ParameterAlreadyExists"
  | .parameterNotFound => "ParameterNotFound"

/-- `put_parameter` with `Overwrite=False`: rejects when the name exists,
otherwise stores the value with description and tags, at version 1. -/
def ssmPutCreate (s : Store) (name value desc : String)
    (tags : List (String × String)) : Except SsmError Store :=
  if containsKey s name then .error .parameterAlreadyExists
  else .ok ((name, ⟨value, desc, tags, 1⟩) :: s)

/-- `put_parameter` with `Overwrite=True`: replaces value and description of
an existing record (keeping its tags, bumping its version), or creates the
record with no tags when absent. -/
def ssmPutOverwrite : Store → String → String → String → Store
  | [], name, v, d => [(name, ⟨v, d, [], 1⟩)]
  | kv :: rest, name, v, d =>
    if kv.1 = name then
      (kv.1, { kv.2 with value := v, description := d, version := kv.2.version + 1 }) :: rest
    else kv :: ssmPutOverwrite rest name v d

/-- Insert or replace one tag by key. -/
def upsertTag (tags : List (String × String)) (t : String × String) :
    List (String × String) :=
  if tags.any (fun kv => kv.1 = t.1) then
    tags.map (fun kv => if kv.1 = t.1 then t else kv)
  else tags ++ [t]

/-- `add_tags_to_resource`: merge the given tags into an existing record,
failing when the resource is absent. -/
def ssmAddTags : Store → String → List (String × String) → Except SsmError Store
  | [], _, _ => .error .parameterNotFound
  | kv :: rest, name, tags =>
    if kv.1 = name then
      .ok ((kv.1, { kv.2 with tags := tags.foldl upsertTag kv.2.tags }) :: rest)
    else
      match ssmAddTags rest name tags with
      | .ok rest2 => .ok (kv :: rest2)
      | .error e => .error e

/-- `get_parameter` with decryption: the stored value, or `ParameterNotFound`. -/
def ssmGet (s : Store) (name : String) : Except SsmError String :=
  match lookupParam s name with
  | some p => .ok p.value
  | none => .error .parameterNotFound

/-- `delete_parameter`: removes the record, or `ParameterNotFound`. -/
def ssmDelete : Store → String → Except SsmError Store
  | [], _ => .error .parameterNotFound
  | kv :: rest, name =>
    if kv.1 = name then .ok rest
    else
      match ssmDelete rest name with
      | .ok rest2 => .ok (kv :: rest2)
      | .error e => .error e

/-- The password alphabet of `_generate_password`:
`string.ascii_letters + string.digits + "!@#$%^&*"`. -/
def alphabet : List Char :=
  ("abcdefghijklmnopqrstuvwxyzABCDEFGHIJKLMNOPQRSTUVWXYZ"
    ++ "0123456789" ++ "!@#$%^&*").data

/-- `secrets.choice`: a uniform draw from the list, modelled as indexing by
the random draw modulo the list length. -/
def secretsChoice (l : List Char) (k : Nat) : Char :=
  l.getD (k % l.length) ' '

/-- `_generate_password(length)`: floor the length at 8, then draw one
alphabet character per position from the random stream `r`. -/
def generate_password (r : Nat → Nat) (length : Nat) : String :=
  let len := if length < 8 then 8 else length
  String.mk ((List.range len).map (fun i => secretsChoice alphabet (r i)))

/-- `PasswordManager.create_login(login, password)`: reject an empty login;
generate a password when none is supplied; strict put (reject-on-exists) of
`{prefix}{login}` with the two fixed tags; return the stored password. -/
def create_login (pfx : String) (s : Store) (login : String)
    (password : Option String) (r : Nat → Nat) : Except PMError String × Store :=
  if login = "" then (.error (.validation "Login cannot be empty"), s)
  else
    let paramName := pfx ++ login
    let pwd :=
      match password with
      | none => generate_password r 16
      | some p => p
    match ssmPutCreate s paramName pwd ("Password for login: " ++ login)
        [("Type", "Password"), ("Login", login)] with
    | .ok s1 => (.ok pwd, s1)
    | .error .parameterAlreadyExists =>
        (.error (.alreadyExists ("Login \x27" ++ login
          ++ "\x27 already exists. Use update to modify existing login.")), s)
    | .error e =>
        (.error (.aws ("Failed to create login: " ++ ssmErrorText e)), s)

/-- `PasswordManager.update_login(login, password)`: reject empty login or
empty password; overwrite the value unconditionally; then re-apply the two
fixed tags in a separate call. -/
def update_login (pfx : String) (s : Store) (login password : String) :
    Except PMError Unit × Store :=
  if login = "" then (.error (.validation "Login cannot be empty"), s)
  else if password = "" then (.error (.validation "Password cannot be empty"), s)
  else
    let paramName := pfx ++ login
    let s1 := ssmPutOverwrite s paramName password ("Password for login: " ++ login)
    match ssmAddTags s1 paramName [("Type", "Password"), ("Login", login)] with
    | .ok s2 => (.ok (), s2)
    | .error e => (.error (.aws ("Failed to update login: " ++ ssmErrorText e)), s1)

/-- `PasswordManager.delete_login(login)`: reject an empty login; delete,
translating `ParameterNotFound` to `LoginNotFoundError`. -/
def delete_login (pfx : String) (s : Store) (login : String) :
    Except PMError Unit × Store :=
  if login = "" then (.error (.validation "Login cannot be empty"), s)
  else
    match ssmDelete s (pfx ++ login) with
    | .ok s1 => (.ok (), s1)
    | .error .parameterNotFound =>
        (.error (.notFound ("Login \x27" ++ login ++ "\x27 not found")), s)
    | .error e =>
        (.error (.aws ("Failed to delete login: " ++ ssmErrorText e)), s)

/-- `PasswordManager.get_password(login)`: reject an empty login; decrypting
get, translating `ParameterNotFound` to `LoginNotFoundError`. -/
def get_password (pfx : String) (s : Store) (login : String) :
    Except PMError String × Store :=
  if login = "" then (.error (.validation "Login cannot be empty"), s)
  else
    match ssmGet s (pfx ++ login) with
    | .ok v => (.ok v, s)
    | .error .parameterNotFound =>
        (.error (.notFound ("Login \x27" ++ login ++ "\x27 not found")), s)
    | .error e =>
        (.error (.aws ("Failed to get password: " ++ ssmErrorText e)), s)

/-- `PasswordManager.rotate_password(login, length)`: reject an empty login;
get first (purely to surface not-found); then generate and update. -/
def rotate_password (pfx : String) (s : Store) (login : String) (length : Nat)
    (r : Nat → Nat) : Except PMError String × Store :=
  if login = "" then (.error (.validation "Login cannot be empty"), s)
  else
    match get_password pfx s login with
    | (.error e, s1) => (.error e, s1)
    | (.ok _, s1) =>
      let newPassword := generate_password r length
      match update_login pfx s1 login newPassword with
      | (.error e, s2) => (.error e, s2)
      | (.ok _, s2) => (.ok newPassword, s2)

/-- `PasswordManager.login_exists(login)`: reject an empty login; call
`get_password` and convert `LoginNotFoundError` to `false`; any other error
propagates. -/
def login_exists (pfx : String) (s : Store) (login : String) :
    Except PMError Bool × Store :=
  if login = "" then (.error (.validation "Login cannot be empty"), s)
  else
    match get_password pfx s login with
    | (.ok _, s1) => (.ok true, s1)
    | (.error (.notFound _), s1) => (.ok false, s1)
    | (.error e, s1) => (.error e, s1)

/-- The metadata dictionary returned by `get_login_info` (the last-modified
timestamp is store wall-clock state, not modelled). -/
structure LoginInfo where
  name : String
  description : String
  type : String
  version : Nat
deriving DecidableEq

/-- `PasswordManager.get_login_info(login)`: reject an empty login; describe
by exact name, `LoginNotFoundError` when the store has no match. -/
def get_login_info (pfx : String) (s : Store) (login : String) :
    Except PMError LoginInfo × Store :=
  if login = "" then (.error (.validation "Login cannot be empty"), s)
  else
    match lookupParam s (pfx ++ login) with
    | none => (.error (.notFound ("Login \x27" ++ login ++ "\x27 not found")), s)
    | some p => (.ok ⟨pfx ++ login, p.description, "SecureString", p.version⟩, s)

/-- Lexicographic comparison of character lists by code point, the order
Python's `sorted` uses on strings. -/
def charListLe : List Char → List Char → Bool
  | [], _ => true
  | _ :: _, [] => false
  | a :: as, b :: bs => if a = b then charListLe as bs else decide (a < b)

/-- Lexicographic comparison of strings. -/
def strLe (a b : String) : Bool := charListLe a.data b.data

/-- `PasswordManager.list_logins()`: describe all parameters whose name
begins with the prefix, strip the prefix from each, return them sorted. -/
def list_logins (pfx : String) (s : Store) : Except PMError (List String) × Store :=
  let logins := (s.filter (fun kv => pfx.data.isPrefixOf kv.1.data)).map
    (fun kv => String.mk (kv.1.data.drop pfx.length))
  (.ok (logins.mergeSort strLe), s)

/-- The flash message the web login handler shows when a manager error is
caught, from `app.py`: `flash(f'Authentication error: {e}', 'error')`. -/
def loginFlashOnManagerError (e : PMError) : String :=
  "Authentication error: " ++ e.message

/-- Is this result a `ValidationError`? -/
def isValidation {α : Type} : Except PMError α → Bool
  | .error (.validation _) => true
  | _ => false

/-- One Credential Manager operation, for reasoning about operation
sequences. -/
inductive MgrOp where
  | createOp (login : String) (password : Option String)
  | updateOp (login password : String)
  | deleteOp (login : String)
  | rotateOp (login : String) (length : Nat)
  | getOp (login : String)
  | existsOp (login : String)
  | infoOp (login : String)
  | listOp

/-- The store state after one manager operation. -/
def applyOp (pfx : String) (r : Nat → Nat) (s : Store) : MgrOp → Store
  | .createOp l p => (create_login pfx s l p r).2
  | .updateOp l p => (update_login pfx s l p).2
  | .deleteOp l => (delete_login pfx s l).2
  | .rotateOp l n => (rotate_password pfx s l n r).2
  | .getOp l => (get_password pfx s l).2
  | .existsOp l => (login_exists pfx s l).2
  | .infoOp l => (get_login_info pfx s l).2
  | .listOp => (list_logins pfx s).2

/-- The store state after a sequence of manager operations. -/
def runOps (pfx : String) (r : Nat → Nat) : List MgrOp → Store → Store
  | [], s => s
  | op :: ops, s => runOps pfx r ops (applyOp pfx r s op)

/-- At most one record per parameter name: the store's keys are distinct. -/
def KeysNodup (s : Store) : Prop := (storeKeys s).Nodup

/-! Helper lemmas about the store model. -/

theorem storeKeys_nil : storeKeys [] = [] := rfl

theorem storeKeys_cons (kv : String × ParamRecord) (s : Store) :
    storeKeys (kv :: s) = kv.1 :: storeKeys s := rfl

theorem containsKey_iff_mem (s : Store) (n : String) :
    containsKey s n = true ↔ n ∈ storeKeys s := by
  induction s with
  | nil => simp [containsKey, storeKeys]
  | cons kv rest ih =>
    simp only [containsKey, storeKeys, List.map_cons, List.mem_cons,
      Bool.or_eq_true, decide_eq_true_eq] at *
    constructor
    · rintro (h | h)
      · exact Or.inl h.symm
      · exact Or.inr (ih.mp h)
    · rintro (h | h)
      · exact Or.inl h.symm
      · exact Or.inr (ih.mpr h)

theorem lookupParam_none_iff (s : Store) (n : String) :
    lookupParam s n = none ↔ containsKey s n = false := by
  induction s with
  | nil => simp [lookupParam, containsKey]
  | cons kv rest ih =>
    by_cases h : kv.1 = n <;> simp [lookupParam, containsKey, h, ih]

theorem lookupParam_some_of_contains (s : Store) (n : String)
    (h : containsKey s n = true) : ∃ p, lookupParam s n = some p := by
  cases hl : lookupParam s n with
  | none => rw [lookupParam_none_iff] at hl; rw [hl] at h; cases h
  | some p => exact ⟨p, rfl⟩

theorem lookupParam_contains_of_some (s : Store) (n : String) (p : ParamRecord)
    (h : lookupParam s n = some p) : containsKey s n = true := by
  cases hc : containsKey s n with
  | false => rw [← lookupParam_none_iff] at hc; rw [hc] at h; cases h
  | true => rfl

/-! Helper lemmas about `get_password`. -/

theorem get_password_eq_of_some (pfx : String) (s : Store) (login : String)
    (p : ParamRecord) (hl : login ≠ "") (h : lookupParam s (pfx ++ login) = some p) :
    get_password pfx s login = (.ok p.value, s) := by
  simp [get_password, hl, ssmGet, h]

theorem get_password_eq_of_none (pfx : String) (s : Store) (login : String)
    (hl : login ≠ "") (h : lookupParam s (pfx ++ login) = none) :
    get_password pfx s login =
      (.error (.notFound ("Login \x27" ++ login ++ "\x27 not found")), s) := by
  simp [get_password, hl, ssmGet, h]

theorem get_password_snd (pfx : String) (s : Store) (login : String) :
    (get_password pfx s login).2 = s := by
  by_cases hl : login = ""
  · simp [get_password, hl]
  · cases h : lookupParam s (pfx ++ login) with
    | none => rw [get_password_eq_of_none pfx s login hl h]
    | some p => rw [get_password_eq_of_some pfx s login p hl h]

/-! Helper lemmas about the password generator. -/

theorem generate_password_data (r : Nat → Nat) (n : Nat) :
    (generate_password r n).data =
      (List.range (if n < 8 then 8 else n)).map (fun i => secretsChoice alphabet (r i)) :=
  rfl

theorem generate_password_length (r : Nat → Nat) (n : Nat) :
    (generate_password r n).length = max n 8 := by
  show (generate_password r n).data.length = max n 8
  rw [generate_password_data, List.length_map, List.length_range]
  split <;> omega

theorem generate_password_ne_empty (r : Nat → Nat) (n : Nat) :
    generate_password r n ≠ "" := by
  intro h
  have h0 : (generate_password r n).length = 0 := by rw [h]; rfl
  rw [generate_password_length] at h0
  omega

/-! Helper lemmas about overwrite, tags and delete. -/

theorem storeKeys_ssmPutOverwrite (s : Store) (n v d : String) :
    storeKeys (ssmPutOverwrite s n v d) =
      if containsKey s n then storeKeys s else storeKeys s ++ [n] := by
  induction s with
  | nil => simp [ssmPutOverwrite, containsKey, storeKeys]
  | cons kv rest ih =>
    by_cases h : kv.1 = n
    · simp [ssmPutOverwrite, containsKey, storeKeys, h]
    · have e1 : ssmPutOverwrite (kv :: rest) n v d = kv :: ssmPutOverwrite rest n v d := by
        simp [ssmPutOverwrite, h]
      have e2 : containsKey (kv :: rest) n = containsKey rest n := by
        simp [containsKey, h]
      rw [e1, e2, storeKeys_cons, storeKeys_cons, ih]
      split <;> simp

theorem lookupParam_ssmPutOverwrite_self (s : Store) (n v d : String) :
    ∃ p, lookupParam (ssmPutOverwrite s n v d) n = some p ∧ p.value = v ∧
      p.description = d := by
  induction s with
  | nil => exact ⟨⟨v, d, [], 1⟩, by simp [ssmPutOverwrite, lookupParam], rfl, rfl⟩
  | cons kv rest ih =>
    by_cases h : kv.1 = n
    · refine ⟨{ kv.2 with value := v, description := d, version := kv.2.version + 1 },
        ?_, rfl, rfl⟩
      simp [ssmPutOverwrite, lookupParam, h]
    · obtain ⟨p, hp, hv, hd⟩ := ih
      exact ⟨p, by simp [ssmPutOverwrite, lookupParam, h, hp], hv, hd⟩

theorem containsKey_ssmPutOverwrite_self (s : Store) (n v d : String) :
    containsKey (ssmPutOverwrite s n v d) n = true := by
  obtain ⟨p, hp, _, _⟩ := lookupParam_ssmPutOverwrite_self s n v d
  exact lookupParam_contains_of_some _ n p hp

theorem mem_upsertTag_self (tags : List (String × String)) (t : String × String) :
    t ∈ upsertTag tags t := by
  unfold upsertTag
  split
  · next h =>
    rw [List.any_eq_true] at h
    obtain ⟨kv, hkv, hk⟩ := h
    rw [decide_eq_true_eq] at hk
    exact List.mem_map.mpr ⟨kv, hkv, by simp [hk]⟩
  · simp

theorem mem_upsertTag_of_ne (tags : List (String × String)) (t u : String × String)
    (hu : u ∈ tags) (hne : u.1 ≠ t.1) : u ∈ upsertTag tags t := by
  unfold upsertTag
  split
  · exact List.mem_map.mpr ⟨u, hu, by simp [hne]⟩
  · exact List.mem_append_left _ hu

theorem ssmAddTags_of_contains (s : Store) (n : String)
    (tags : List (String × String)) (h : containsKey s n = true) :
    ∃ s2, ssmAddTags s n tags = .ok s2 ∧
      lookupParam s2 n = (lookupParam s n).map
        (fun p => { p with tags := tags.foldl upsertTag p.tags }) ∧
      storeKeys s2 = storeKeys s := by
  induction s with
  | nil => simp [containsKey] at h
  | cons kv rest ih =>
    by_cases hk : kv.1 = n
    · refine ⟨(kv.1, { kv.2 with tags := tags.foldl upsertTag kv.2.tags }) :: rest,
        by simp [ssmAddTags, hk], ?_, by simp [storeKeys]⟩
      simp [lookupParam, hk]
    · have h2 : containsKey rest n = true := by
        simpa [containsKey, hk] using h
      obtain ⟨s2, hrun, hlook, hkeys⟩ := ih h2
      refine ⟨kv :: s2, by simp [ssmAddTags, hk, hrun], ?_,
        by rw [storeKeys_cons, storeKeys_cons, hkeys]⟩
      simp [lookupParam, hk, hlook]

theorem ssmDelete_ok_keys (s : Store) (n : String) (s2 : Store)
    (h : ssmDelete s n = .ok s2) : (storeKeys s2).Sublist (storeKeys s) := by
  induction s generalizing s2 with
  | nil => simp [ssmDelete] at h
  | cons kv rest ih =>
    by_cases hk : kv.1 = n
    · simp only [ssmDelete, if_pos hk, Except.ok.injEq] at h
      subst h
      exact (List.sublist_cons_self _ _)
    · simp only [ssmDelete, if_neg hk] at h
      cases hd : ssmDelete rest n with
      | ok rest2 =>
        rw [hd] at h
        simp only [Except.ok.injEq] at h
        subst h
        simpa [storeKeys] using (ih rest2 hd).cons₂ kv.1
      | error e => rw [hd] at h; cases h

/-! Success characterizations of `update_login` and `create_login`. -/

theorem update_login_ok (pfx : String) (s : Store) (login password : String)
    (hl : login ≠ "") (hp : password ≠ "") :
    ∃ s2, update_login pfx s login password = (.ok (), s2) ∧
      (∃ p, lookupParam s2 (pfx ++ login) = some p ∧ p.value = password ∧
        ("Type", "Password") ∈ p.tags ∧ ("Login", login) ∈ p.tags) ∧
      storeKeys s2 = (if containsKey s (pfx ++ login) then storeKeys s
        else storeKeys s ++ [pfx ++ login]) := by
  have hc1 : containsKey (ssmPutOverwrite s (pfx ++ login) password
      ("Password for login: " ++ login)) (pfx ++ login) = true :=
    containsKey_ssmPutOverwrite_self s (pfx ++ login) password
      ("Password for login: " ++ login)
  obtain ⟨s2, hrun, hlook, hkeys⟩ := ssmAddTags_of_contains _ (pfx ++ login)
    [("Type", "Password"), ("Login", login)] hc1
  obtain ⟨p1, hp1, hv1, hd1⟩ := lookupParam_ssmPutOverwrite_self s (pfx ++ login)
    password ("Password for login: " ++ login)
  refine ⟨s2, ?_, ?_, ?_⟩
  · simp [update_login, hl, hp, hrun]
  · refine ⟨{ p1 with
        tags := [("Type", "Password"), ("Login", login)].foldl upsertTag p1.tags },
      ?_, hv1, ?_, ?_⟩
    · rw [hlook, hp1]; rfl
    · show ("Type", "Password") ∈
        upsertTag (upsertTag p1.tags ("Type", "Password")) ("Login", login)
      exact mem_upsertTag_of_ne _ _ _ (mem_upsertTag_self _ _)
        (by show ("Type" : String) ≠ "Login"; decide)
    · show ("Login", login) ∈
        upsertTag (upsertTag p1.tags ("Type", "Password")) ("Login", login)
      exact mem_upsertTag_self _ _
  · rw [hkeys, storeKeys_ssmPutOverwrite]

theorem create_login_ok (pfx : String) (s : Store) (login : String)
    (pw : Option String) (r : Nat → Nat)
    (hl : login ≠ "") (hc : containsKey s (pfx ++ login) = false) :
    create_login pfx s login pw r =
      (.ok (pw.getD (generate_password r 16)),
        (pfx ++ login,
          ⟨pw.getD (generate_password r 16), "Password for login: " ++ login,
            [("Type", "Password"), ("Login", login)], 1⟩) :: s) := by
  cases pw <;> simp [create_login, hl, ssmPutCreate, hc, Option.getD]

theorem create_login_exists (pfx : String) (s : Store) (login : String)
    (pw : Option String) (r : Nat → Nat)
    (hl : login ≠ "") (hc : containsKey s (pfx ++ login) = true) :
    create_login pfx s login pw r =
      (.error (.alreadyExists ("Login \x27" ++ login
        ++ "\x27 already exists. Use update to modify existing login.")), s) := by
  cases pw <;> simp [create_login, hl, ssmPutCreate, hc]

/-! Characterizations of `rotate_password`. -/

theorem rotate_password_notFound (pfx : String) (s : Store) (login : String)
    (length : Nat) (r : Nat → Nat) (hl : login ≠ "")
    (hc : containsKey s (pfx ++ login) = false) :
    rotate_password pfx s login length r =
      (.error (.notFound ("Login \x27" ++ login ++ "\x27 not found")), s) := by
  have h0 : lookupParam s (pfx ++ login) = none :=
    (lookupParam_none_iff s (pfx ++ login)).mpr hc
  simp [rotate_password, hl, get_password_eq_of_none pfx s login hl h0]

theorem rotate_password_ok (pfx : String) (s : Store) (login : String)
    (length : Nat) (r : Nat → Nat) (hl : login ≠ "") (p : ParamRecord)
    (hp : lookupParam s (pfx ++ login) = some p) :
    ∃ s2, rotate_password pfx s login length r =
        (.ok (generate_password r length), s2) ∧
      (∃ q, lookupParam s2 (pfx ++ login) = some q ∧
        q.value = generate_password r length) ∧
      storeKeys s2 = storeKeys s := by
  obtain ⟨s2, hup, ⟨q, hq, hqv, _, _⟩, hkeys⟩ := update_login_ok pfx s login
    (generate_password r length) hl (generate_password_ne_empty r length)
  refine ⟨s2, ?_, ⟨q, hq, hqv⟩, ?_⟩
  · simp [rotate_password, hl, get_password_eq_of_some pfx s login p hl hp, hup]
  · rw [hkeys, if_pos (lookupParam_contains_of_some s (pfx ++ login) p hp)]

/-! Validation behaviour of each operation: a `ValidationError` occurs exactly
on empty required arguments, and then the store is unchanged. -/

theorem create_login_validation (pfx : String) (s : Store) (login : String)
    (pw : Option String) (r : Nat → Nat) :
    (isValidation (create_login pfx s login pw r).1 = true ↔ login = "") ∧
    (isValidation (create_login pfx s login pw r).1 = true →
      (create_login pfx s login pw r).2 = s) := by
  by_cases hl : login = ""
  · exact ⟨by simp [create_login, hl, isValidation], fun _ => by simp [create_login, hl]⟩
  · have hfalse : isValidation (create_login pfx s login pw r).1 = false := by
      cases hc : containsKey s (pfx ++ login)
      · rw [create_login_ok pfx s login pw r hl hc]; rfl
      · rw [create_login_exists pfx s login pw r hl hc]; rfl
    rw [hfalse]
    simp [hl]

theorem update_login_validation (pfx : String) (s : Store) (login password : String) :
    (isValidation (update_login pfx s login password).1 = true ↔
      login = "" ∨ password = "") ∧
    (isValidation (update_login pfx s login password).1 = true →
      (update_login pfx s login password).2 = s) := by
  by_cases hl : login = ""
  · exact ⟨by simp [update_login, hl, isValidation], fun _ => by simp [update_login, hl]⟩
  · by_cases hpw : password = ""
    · exact ⟨by simp [update_login, hl, hpw, isValidation],
        fun _ => by simp [update_login, hl, hpw]⟩
    · obtain ⟨s2, hrun, _, _⟩ := update_login_ok pfx s login password hl hpw
      rw [hrun]
      simp [isValidation, hl, hpw]

theorem delete_login_validation (pfx : String) (s : Store) (login : String) :
    (isValidation (delete_login pfx s login).1 = true ↔ login = "") ∧
    (isValidation (delete_login pfx s login).1 = true →
      (delete_login pfx s login).2 = s) := by
  by_cases hl : login = ""
  · exact ⟨by simp [delete_login, hl, isValidation], fun _ => by simp [delete_login, hl]⟩
  · have hfalse : isValidation (delete_login pfx s login).1 = false := by
      cases hd : ssmDelete s (pfx ++ login) with
      | ok s1 => simp [delete_login, hl, hd, isValidation]
      | error e => cases e <;> simp [delete_login, hl, hd, isValidation]
    rw [hfalse]
    simp [hl]

theorem get_password_validation (pfx : String) (s : Store) (login : String) :
    (isValidation (get_password pfx s login).1 = true ↔ login = "") ∧
    (isValidation (get_password pfx s login).1 = true →
      (get_password pfx s login).2 = s) := by
  refine ⟨?_, fun _ => get_password_snd pfx s login⟩
  by_cases hl : login = ""
  · simp [get_password, hl, isValidation]
  · have hfalse : isValidation (get_password pfx s login).1 = false := by
      cases h : lookupParam s (pfx ++ login) with
      | none => rw [get_password_eq_of_none pfx s login hl h]; rfl
      | some p => rw [get_password_eq_of_some pfx s login p hl h]; rfl
    rw [hfalse]
    simp [hl]

theorem login_exists_result (pfx : String) (s : Store) (login : String)
    (hl : login ≠ "") :
    login_exists pfx s login = (.ok (containsKey s (pfx ++ login)), s) := by
  cases h : lookupParam s (pfx ++ login) with
  | none =>
    have hc : containsKey s (pfx ++ login) = false :=
      (lookupParam_none_iff s (pfx ++ login)).mp h
    simp [login_exists, hl, get_password_eq_of_none pfx s login hl h, hc]
  | some p =>
    have hc := lookupParam_contains_of_some s (pfx ++ login) p h
    simp [login_exists, hl, get_password_eq_of_some pfx s login p hl h, hc]

theorem login_exists_validation (pfx : String) (s : Store) (login : String) :
    (isValidation (login_exists pfx s login).1 = true ↔ login = "") ∧
    (isValidation (login_exists pfx s login).1 = true →
      (login_exists pfx s login).2 = s) := by
  by_cases hl : login = ""
  · exact ⟨by simp [login_exists, hl, isValidation], fun _ => by simp [login_exists, hl]⟩
  · rw [login_exists_result pfx s login hl]
    simp [isValidation, hl]

theorem get_login_info_validation (pfx : String) (s : Store) (login : String) :
    (isValidation (get_login_info pfx s login).1 = true ↔ login = "") ∧
    (isValidation (get_login_info pfx s login).1 = true →
      (get_login_info pfx s login).2 = s) := by
  by_cases hl : login = ""
  · exact ⟨by simp [get_login_info, hl, isValidation],
      fun _ => by simp [get_login_info, hl]⟩
  · have hfalse : isValidation (get_login_info pfx s login).1 = false := by
      cases h : lookupParam s (pfx ++ login) <;> simp [get_login_info, hl, h, isValidation]
    rw [hfalse]
    simp [hl]

theorem rotate_password_validation (pfx : String) (s : Store) (login : String)
    (length : Nat) (r : Nat → Nat) :
    (isValidation (rotate_password pfx s login length r).1 = true ↔ login = "") ∧
    (isValidation (rotate_password pfx s login length r).1 = true →
      (rotate_password pfx s login length r).2 = s) := by
  by_cases hl : login = ""
  · exact ⟨by simp [rotate_password, hl, isValidation],
      fun _ => by simp [rotate_password, hl]⟩
  · have hfalse : isValidation (rotate_password pfx s login length r).1 = false := by
      cases h : lookupParam s (pfx ++ login) with
      | none =>
        rw [rotate_password_notFound pfx s login length r hl
          ((lookupParam_none_iff s (pfx ++ login)).mp h)]
        rfl
      | some p =>
        obtain ⟨s2, hrot, _, _⟩ := rotate_password_ok pfx s login length r hl p h
        rw [hrot]
        rfl
    rw [hfalse]
    simp [hl]

/-! Preservation of key uniqueness by every manager operation. -/

theorem KeysNodup_create (pfx : String) (s : Store) (login : String)
    (pw : Option String) (r : Nat → Nat) (h : KeysNodup s) :
    KeysNodup (create_login pfx s login pw r).2 := by
  by_cases hl : login = ""
  · simpa [create_login, hl] using h
  · cases hc : containsKey s (pfx ++ login)
    · rw [create_login_ok pfx s login pw r hl hc]
      have hnm : (pfx ++ login) ∉ storeKeys s := by
        intro hm
        rw [← containsKey_iff_mem] at hm
        rw [hm] at hc
        cases hc
      exact List.nodup_cons.mpr ⟨hnm, h⟩
    · rw [create_login_exists pfx s login pw r hl hc]
      exact h

theorem KeysNodup_update (pfx : String) (s : Store) (login password : String)
    (h : KeysNodup s) : KeysNodup (update_login pfx s login password).2 := by
  by_cases hl : login = ""
  · simpa [update_login, hl] using h
  · by_cases hpw : password = ""
    · simpa [update_login, hl, hpw] using h
    · obtain ⟨s2, hrun, _, hkeys⟩ := update_login_ok pfx s login password hl hpw
      rw [hrun]
      unfold KeysNodup
      rw [hkeys]
      split
      · exact h
      · next hc =>
        refine List.Nodup.append h (List.nodup_singleton _) ?_
        intro a ha hb
        rw [List.mem_singleton] at hb
        subst hb
        rw [← containsKey_iff_mem] at ha
        exact hc ha

theorem KeysNodup_delete (pfx : String) (s : Store) (login : String)
    (h : KeysNodup s) : KeysNodup (delete_login pfx s login).2 := by
  by_cases hl : login = ""
  · simpa [delete_login, hl] using h
  · cases hd : ssmDelete s (pfx ++ login) with
    | ok s1 =>
      have hsub := ssmDelete_ok_keys s (pfx ++ login) s1 hd
      have h1 : KeysNodup s1 := List.Nodup.sublist hsub h
      simpa [delete_login, hl, hd] using h1
    | error e => cases e <;> simpa [delete_login, hl, hd] using h

theorem KeysNodup_rotate (pfx : String) (s : Store) (login : String)
    (length : Nat) (r : Nat → Nat) (h : KeysNodup s) :
    KeysNodup (rotate_password pfx s login length r).2 := by
  by_cases hl : login = ""
  · simpa [rotate_password, hl] using h
  · cases hlk : lookupParam s (pfx ++ login) with
    | none =>
      rw [rotate_password_notFound pfx s login length r hl
        ((lookupParam_none_iff s (pfx ++ login)).mp hlk)]
      exact h
    | some p =>
      obtain ⟨s2, hrot, _, hkeys⟩ := rotate_password_ok pfx s login length r hl p hlk
      rw [hrot]
      unfold KeysNodup
      rw [hkeys]
      exact h

theorem KeysNodup_applyOp (pfx : String) (r : Nat → Nat) (s : Store) (op : MgrOp)
    (h : KeysNodup s) : KeysNodup (applyOp pfx r s op) := by
  cases op with
  | createOp l p => exact KeysNodup_create pfx s l p r h
  | updateOp l p => exact KeysNodup_update pfx s l p h
  | deleteOp l => exact KeysNodup_delete pfx s l h
  | rotateOp l n => exact KeysNodup_rotate pfx s l n r h
  | getOp l => show KeysNodup (get_password pfx s l).2; rw [get_password_snd]; exact h
  | existsOp l =>
    show KeysNodup (login_exists pfx s l).2
    by_cases hl : l = ""
    · simpa [login_exists, hl] using h
    · rw [login_exists_result pfx s l hl]; exact h
  | infoOp l =>
    show KeysNodup (get_login_info pfx s l).2
    by_cases hl : l = ""
    · simpa [get_login_info, hl] using h
    · cases hlk : lookupParam s (pfx ++ l) <;> simpa [get_login_info, hl, hlk] using h
  | listOp => exact h

theorem KeysNodup_runOps (pfx : String) (r : Nat → Nat) (ops : List MgrOp)
    (s : Store) (h : KeysNodup s) : KeysNodup (runOps pfx r ops s) := by
  induction ops generalizing s with
  | nil => exact h
  | cons op ops ih => exact ih _ (KeysNodup_applyOp pfx r s op h)

/-! Lexicographic order lemmas for the sorted listing. -/

theorem charListLe_trans (a b c : List Char) (hab : charListLe a b = true)
    (hbc : charListLe b c = true) : charListLe a c = true := by
  induction a generalizing b c with
  | nil => cases c <;> rfl
  | cons x as ih =>
    cases b with
    | nil => simp [charListLe] at hab
    | cons y bs =>
      cases c with
      | nil => simp [charListLe] at hbc
      | cons z cs =>
        simp only [charListLe] at *
        by_cases hxy : x = y
        · subst hxy
          by_cases hyz : x = z
          · subst hyz
            simp only [if_pos rfl] at *
            exact ih bs cs hab hbc
          · rw [if_pos rfl] at hab
            rw [if_neg hyz] at *
            exact hbc
        · rw [if_neg hxy] at hab
          rw [decide_eq_true_eq] at hab
          by_cases hyz : y = z
          · subst hyz
            rw [if_neg hxy]
            rw [decide_eq_true_eq]
            exact hab
          · rw [if_neg hyz, decide_eq_true_eq] at hbc
            have hxz : x < z := lt_trans hab hbc
            rw [if_neg (ne_of_lt hxz), decide_eq_true_eq]
            exact hxz

theorem charListLe_total (a b : List Char) :
    (charListLe a b || charListLe b a) = true := by
  induction a generalizing b with
  | nil => rfl
  | cons x as ih =>
    cases b with
    | nil => rfl
    | cons y bs =>
      simp only [charListLe]
      by_cases hxy : x = y
      · subst hxy
        simp only [if_pos rfl]
        exact ih bs
      · rw [if_neg hxy, if_neg (Ne.symm hxy)]
        rcases lt_or_gt_of_ne hxy with h | h
        · simp [h]
        · simp [h]

theorem strLe_trans (a b c : String) (hab : strLe a b = true)
    (hbc : strLe b c = true) : strLe a c = true :=
  charListLe_trans a.data b.data c.data hab hbc

theorem strLe_total (a b : String) : (strLe a b || strLe b a) = true :=
  charListLe_total a.data b.data

/-! The claims. -/

/-- C1, as stated, is refuted: the alphabet {A-Z, a-z, 0-9, !@#$%^&*} built by
`_generate_password` has 70 characters (26+26+10+8), not 72. -/
theorem c1_alphabet_not_72 : alphabet.length ≠ 72 := by decide

/-- C1 (amended): for every requested length L, the generated password has
length exactly max(L, 8) (16 when no length is requested), and every character
is drawn, with replacement, by the random stream from the 70-character
alphabet {A-Z, a-z, 0-9, !@#$%^&*} (a duplicate-free alphabet, each position
indexing it by the stream's draw). -/
theorem c1_generate_password_policy (L : Nat) (r : Nat → Nat) :
    (generate_password r L).length = max L 8 ∧
    (generate_password r 16).length = 16 ∧
    alphabet.length = 70 ∧
    alphabet.Nodup ∧
    (∀ i : Nat, i < max L 8 →
      (generate_password r L).data[i]? = some (alphabet.getD (r i % 70) ' ')) ∧
    (∀ c ∈ (generate_password r L).data, c ∈ alphabet) := by
  have h70 : alphabet.length = 70 := by decide
  have hmax : (if L < 8 then 8 else L) = max L 8 := by split <;> omega
  refine ⟨generate_password_length r L,
    by rw [generate_password_length]; omega, h70, by decide, ?_, ?_⟩
  · intro i hi
    rw [generate_password_data, List.getElem?_map, hmax, List.getElem?_range hi]
    simp [secretsChoice, h70]
  · intro c hc
    rw [generate_password_data] at hc
    obtain ⟨i, hi, rfl⟩ := List.mem_map.mp hc
    unfold secretsChoice
    rw [List.getD_eq_getElem alphabet ' '
      (Nat.mod_lt _ (by decide : 0 < alphabet.length))]
    exact List.getElem_mem _

/-- Witness for C1's theorem at a concrete length and stream. -/
theorem c1_generate_password_policy_witness :
    (generate_password (fun k => k) 5).length = max 5 8 ∧
    (generate_password (fun k => k) 16).length = 16 ∧
    alphabet.length = 70 ∧
    alphabet.Nodup ∧
    (∀ i : Nat, i < max 5 8 →
      (generate_password (fun k => k) 5).data[i]? =
        some (alphabet.getD ((fun k => k) i % 70) ' ')) ∧
    (∀ c ∈ (generate_password (fun k => k) 5).data, c ∈ alphabet) :=
  c1_generate_password_policy 5 (fun k => k)

/-- C2: `login_exists` raises Validation exactly on the empty name; on every
non-empty name it raises nothing, returning whether the store holds the key
(the internal get's not-found becomes `false`), and leaves the store as is. -/
theorem c2_login_exists_contract (pfx login : String) (s : Store) :
    ((login_exists pfx s login).1 =
      .error (.validation "Login cannot be empty") ↔ login = "") ∧
    (login ≠ "" →
      login_exists pfx s login = (.ok (containsKey s (pfx ++ login)), s)) := by
  by_cases hl : login = ""
  · exact ⟨by simp [login_exists, hl], fun h => absurd hl h⟩
  · rw [login_exists_result pfx s login hl]
    exact ⟨by simp [hl], fun _ => rfl⟩

/-- Witness for C2's theorem on a concrete non-empty name. -/
theorem c2_login_exists_contract_witness :
    login_exists "/passwords/" [] "alice" =
      (.ok (containsKey [] ("/passwords/" ++ "alice")), []) :=
  (c2_login_exists_contract "/passwords/" "alice" []).2 (by decide)

/-- C3, as stated, is refuted: for the manager error `AWSError("Failed to get
password: timeout")` caught during a web login POST, the flashed user-facing
message is exactly "Authentication error: Failed to get password: timeout",
which contains the internal error message as a substring. -/
theorem c3_flash_leaks_counterexample :
    loginFlashOnManagerError (.aws "Failed to get password: timeout") =
      "Authentication error: Failed to get password: timeout" ∧
    "Failed to get password: timeout".data <:+:
      (loginFlashOnManagerError (.aws "Failed to get password: timeout")).data := by
  exact ⟨rfl, ⟨"Authentication error: ".data, [], by decide⟩⟩

/-- C3 (amended): for every manager error raised while handling a web login
POST, the handler flashes "Authentication error: " followed by the internal
error message — the internal error text IS included in the user-facing
message (details are additionally logged server-side); only the
credential-mismatch path and non-manager exceptions get generic messages. -/
theorem c3_flash_includes_error_text (e : PMError) :
    loginFlashOnManagerError e = "Authentication error: " ++ e.message ∧
    e.message.data <:+ (loginFlashOnManagerError e).data :=
  ⟨rfl, ⟨"Authentication error: ".data, (String.data_append _ _).symm⟩⟩

/-- C4: for every Credential Manager operation (create, update, delete, get,
exists, rotate, info), a Validation error occurs exactly when a required
argument is empty — so it is raised locally, before any store write — and
whenever a Validation error occurs, the store is unchanged. -/
theorem c4_validation_is_local (pfx login password : String) (pw : Option String)
    (length : Nat) (r : Nat → Nat) (s : Store) :
    ((isValidation (create_login pfx s login pw r).1 = true ↔ login = "") ∧
      (isValidation (create_login pfx s login pw r).1 = true →
        (create_login pfx s login pw r).2 = s)) ∧
    ((isValidation (update_login pfx s login password).1 = true ↔
        login = "" ∨ password = "") ∧
      (isValidation (update_login pfx s login password).1 = true →
        (update_login pfx s login password).2 = s)) ∧
    ((isValidation (delete_login pfx s login).1 = true ↔ login = "") ∧
      (isValidation (delete_login pfx s login).1 = true →
        (delete_login pfx s login).2 = s)) ∧
    ((isValidation (get_password pfx s login).1 = true ↔ login = "") ∧
      (isValidation (get_password pfx s login).1 = true →
        (get_password pfx s login).2 = s)) ∧
    ((isValidation (login_exists pfx s login).1 = true ↔ login = "") ∧
      (isValidation (login_exists pfx s login).1 = true →
        (login_exists pfx s login).2 = s)) ∧
    ((isValidation (rotate_password pfx s login length r).1 = true ↔ login = "") ∧
      (isValidation (rotate_password pfx s login length r).1 = true →
        (rotate_password pfx s login length r).2 = s)) ∧
    ((isValidation (get_login_info pfx s login).1 = true ↔ login = "") ∧
      (isValidation (get_login_info pfx s login).1 = true →
        (get_login_info pfx s login).2 = s)) :=
  ⟨create_login_validation pfx s login pw r,
   update_login_validation pfx s login password,
   delete_login_validation pfx s login,
   get_password_validation pfx s login,
   login_exists_validation pfx s login,
   rotate_password_validation pfx s login length r,
   get_login_info_validation pfx s login⟩

/-- Witness for C4's theorem: on the empty login, create raises Validation and
the store is unchanged. -/
theorem c4_validation_is_local_witness :
    isValidation (create_login "/p/" [] "" none (fun k => k)).1 = true ∧
    (create_login "/p/" [] "" none (fun k => k)).2 = [] :=
  ⟨((c4_validation_is_local "/p/" "" "" none 0 (fun k => k) []).1.1).mpr rfl,
   ((c4_validation_is_local "/p/" "" "" none 0 (fun k => k) []).1.2)
     (((c4_validation_is_local "/p/" "" "" none 0 (fun k => k) []).1.1).mpr rfl)⟩

/-- C5: for every non-empty name absent from the store, create succeeds,
returns the password actually stored (the supplied one, or the generated one
when omitted), a subsequent get returns that same password, and the generated
default-length password has length at least 16. -/
theorem c5_create_then_get (pfx login : String) (pw : Option String)
    (r : Nat → Nat) (s : Store) (hl : login ≠ "")
    (hc : containsKey s (pfx ++ login) = false) :
    ∃ p s2, create_login pfx s login pw r = (.ok p, s2) ∧
      (get_password pfx s2 login).1 = .ok p ∧
      (∀ q, pw = some q → p = q) ∧
      (pw = none → p = generate_password r 16 ∧ 16 ≤ p.length) := by
  rw [create_login_ok pfx s login pw r hl hc]
  refine ⟨pw.getD (generate_password r 16),
    (pfx ++ login,
      ⟨pw.getD (generate_password r 16), "Password for login: " ++ login,
        [("Type", "Password"), ("Login", login)], 1⟩) :: s, rfl, ?_, ?_, ?_⟩
  · simp [get_password, hl, ssmGet, lookupParam]
  · intro q hq
    subst hq
    rfl
  · intro hq
    subst hq
    refine ⟨rfl, ?_⟩
    rw [Option.getD_none, generate_password_length]
    omega

/-- Witness for C5's theorem with a supplied password on an empty store. -/
theorem c5_create_then_get_witness :
    ∃ p s2, create_login "/p/" [] "alice" (some "pw1") (fun k => k) = (.ok p, s2) ∧
      (get_password "/p/" s2 "alice").1 = .ok p ∧
      (∀ q, (some "pw1" : Option String) = some q → p = q) ∧
      ((some "pw1" : Option String) = none →
        p = generate_password (fun k => k) 16 ∧ 16 ≤ p.length) :=
  c5_create_then_get "/p/" "alice" (some "pw1") (fun k => k) [] (by decide) (by decide)

/-- C6: create on a name the store already holds fails with AlreadyExists,
whatever the password argument, and leaves the store (hence the existing
record's value) unchanged; and after any sequence of manager operations from
the empty store, the store's keys are distinct — at most one record per login
name within the prefix namespace. -/
theorem c6_create_duplicate_and_uniqueness (pfx login : String)
    (pw : Option String) (r : Nat → Nat) (s : Store) (hl : login ≠ "")
    (hc : containsKey s (pfx ++ login) = true) :
    create_login pfx s login pw r =
      (.error (.alreadyExists ("Login \x27" ++ login
        ++ "\x27 already exists. Use update to modify existing login.")), s) ∧
    (∀ ops : List MgrOp, KeysNodup (runOps pfx r ops [])) :=
  ⟨create_login_exists pfx s login pw r hl hc,
   fun ops => KeysNodup_runOps pfx r ops [] List.nodup_nil⟩

/-- Witness for C6's theorem on a store already holding the name. -/
theorem c6_create_duplicate_and_uniqueness_witness :
    create_login "/p/" [("/p/a", ⟨"x", "d", [], 1⟩)] "a" (some "y") (fun k => k) =
      (.error (.alreadyExists ("Login \x27" ++ "a"
        ++ "\x27 already exists. Use update to modify existing login.")),
        [("/p/a", ⟨"x", "d", [], 1⟩)]) ∧
    (∀ ops : List MgrOp, KeysNodup (runOps "/p/" (fun k => k) ops [])) :=
  c6_create_duplicate_and_uniqueness "/p/" "a" (some "y") (fun k => k)
    [("/p/a", ⟨"x", "d", [], 1⟩)] (by decide) (by decide)

/-- C7, as stated, is refuted on one point: rotation can return a password
equal to the one held immediately before.  With the store holding the
24-character password "aaaaaaaaaaaaaaaaaaaaaaaa" and a random stream that
always draws index 0 (the alphabet character at index 0 is the letter a),
rotate with length 24 returns exactly the previously held password. -/
theorem c7_rotate_same_password_counterexample :
    (get_password "/p/" [("/p/a", ⟨"aaaaaaaaaaaaaaaaaaaaaaaa", "d", [], 1⟩)] "a").1 =
      .ok "aaaaaaaaaaaaaaaaaaaaaaaa" ∧
    (rotate_password "/p/" [("/p/a", ⟨"aaaaaaaaaaaaaaaaaaaaaaaa", "d", [], 1⟩)]
      "a" 24 (fun _ => 0)).1 = .ok "aaaaaaaaaaaaaaaaaaaaaaaa" := by
  exact ⟨by decide, by decide⟩

/-- C7 (amended): for every non-empty name, rotate performs a get first,
raising NotFound and leaving the store unchanged when the name is absent;
otherwise it writes and returns the freshly generated password of length
max(length, 8) (24 for length 24), and a subsequent get returns it; the
returned password differs from the one held immediately before whenever the
fresh draw is not exactly that password — in particular whenever the prior
password's length differs from max(length, 8) — but can coincide with it when
the random draw reproduces it. -/
theorem c7_rotate_contract (pfx login : String) (length : Nat) (r : Nat → Nat)
    (s : Store) (hl : login ≠ "") :
    (containsKey s (pfx ++ login) = false →
      rotate_password pfx s login length r =
        (.error (.notFound ("Login \x27" ++ login ++ "\x27 not found")), s)) ∧
    (∀ p, lookupParam s (pfx ++ login) = some p →
      ∃ s2, rotate_password pfx s login length r =
          (.ok (generate_password r length), s2) ∧
        (get_password pfx s2 login).1 = .ok (generate_password r length) ∧
        (generate_password r length).length = max length 8 ∧
        (generate_password r length ≠ p.value →
          (rotate_password pfx s login length r).1 ≠ .ok p.value) ∧
        (p.value.length ≠ max length 8 → generate_password r length ≠ p.value)) := by
  constructor
  · intro hc
    exact rotate_password_notFound pfx s login length r hl hc
  · intro p hp
    obtain ⟨s2, hrot, ⟨q, hq, hqv⟩, _⟩ := rotate_password_ok pfx s login length r hl p hp
    refine ⟨s2, hrot, ?_, generate_password_length r length, ?_, ?_⟩
    · rw [get_password_eq_of_some pfx s2 login q hl hq, hqv]
    · intro hne
      rw [hrot]
      simpa using hne
    · intro hlen heq
      exact hlen (by rw [← heq, generate_password_length])

/-- Witness for C7's theorem on a concrete held name. -/
theorem c7_rotate_contract_witness :
    (containsKey [("/p/a", ⟨"x", "d", [], 1⟩)] ("/p/" ++ "a") = false →
      rotate_password "/p/" [("/p/a", ⟨"x", "d", [], 1⟩)] "a" 24 (fun k => k) =
        (.error (.notFound ("Login \x27" ++ "a" ++ "\x27 not found")),
          [("/p/a", ⟨"x", "d", [], 1⟩)])) ∧
    (∀ p, lookupParam [("/p/a", ⟨"x", "d", [], 1⟩)] ("/p/" ++ "a") = some p →
      ∃ s2, rotate_password "/p/" [("/p/a", ⟨"x", "d", [], 1⟩)] "a" 24 (fun k => k) =
          (.ok (generate_password (fun k => k) 24), s2) ∧
        (get_password "/p/" s2 "a").1 = .ok (generate_password (fun k => k) 24) ∧
        (generate_password (fun k => k) 24).length = max 24 8 ∧
        (generate_password (fun k => k) 24 ≠ p.value →
          (rotate_password "/p/" [("/p/a", ⟨"x", "d", [], 1⟩)] "a" 24
            (fun k => k)).1 ≠ .ok p.value) ∧
        (p.value.length ≠ max 24 8 → generate_password (fun k => k) 24 ≠ p.value)) :=
  c7_rotate_contract "/p/" "a" 24 (fun k => k) [("/p/a", ⟨"x", "d", [], 1⟩)] (by decide)

/-- C8: update raises Validation exactly when the login or the password is
empty; on every pair of non-empty arguments it succeeds unconditionally with
no existence check — never raising NotFound, creating the record when absent —
storing the given value and carrying the two fixed tags Type=Password and
Login=name, re-applied after the value write. -/
theorem c8_update_contract (pfx login password : String) (s : Store) :
    (isValidation (update_login pfx s login password).1 = true ↔
      login = "" ∨ password = "") ∧
    (login ≠ "" → password ≠ "" →
      ∃ s2, update_login pfx s login password = (.ok (), s2) ∧
        ∃ p, lookupParam s2 (pfx ++ login) = some p ∧ p.value = password ∧
          ("Type", "Password") ∈ p.tags ∧ ("Login", login) ∈ p.tags ∧
          (containsKey s (pfx ++ login) = false →
            containsKey s2 (pfx ++ login) = true)) := by
  refine ⟨(update_login_validation pfx s login password).1, ?_⟩
  intro hl hpw
  obtain ⟨s2, hrun, ⟨p, hp, hv, ht1, ht2⟩, _⟩ :=
    update_login_ok pfx s login password hl hpw
  exact ⟨s2, hrun, p, hp, hv, ht1, ht2,
    fun _ => lookupParam_contains_of_some s2 _ p hp⟩

/-- Witness for C8's theorem on an absent name: update creates the record. -/
theorem c8_update_contract_witness :
    ∃ s2, update_login "/p/" [] "a" "pw" = (.ok (), s2) ∧
      ∃ p, lookupParam s2 ("/p/" ++ "a") = some p ∧ p.value = "pw" ∧
        ("Type", "Password") ∈ p.tags ∧ ("Login", "a") ∈ p.tags ∧
        (containsKey [] ("/p/" ++ "a") = false →
          containsKey s2 ("/p/" ++ "a") = true) :=
  (c8_update_contract "/p/" "a" "pw" []).2 (by decide) (by decide)

/-- C9: list returns, with the store untouched, the login names under the
prefix (each stored key with the prefix stripped), pairwise in lexicographic
sorted order; a name is listed exactly when the store holds the prefixed key
(so the listing reflects exactly the names created and not deleted), and the
empty store yields the empty sequence. -/
theorem c9_list_logins_sorted (pfx : String) (s : Store) :
    ∃ names, list_logins pfx s = (.ok names, s) ∧
      List.Pairwise (fun a b => strLe a b = true) names ∧
      (∀ x, x ∈ names ↔ (pfx ++ x) ∈ storeKeys s) ∧
      (s = [] → names = []) := by
  have hdef : list_logins pfx s =
      (.ok (((s.filter (fun kv => pfx.data.isPrefixOf kv.1.data)).map
        (fun kv => String.mk (kv.1.data.drop pfx.length))).mergeSort strLe), s) := rfl
  refine ⟨((s.filter (fun kv => pfx.data.isPrefixOf kv.1.data)).map
      (fun kv => String.mk (kv.1.data.drop pfx.length))).mergeSort strLe,
    hdef, List.sorted_mergeSort strLe_trans strLe_total _, ?_, ?_⟩
  · intro x
    rw [List.mem_mergeSort, List.mem_map]
    constructor
    · rintro ⟨kv, hkv, rfl⟩
      rw [List.mem_filter] at hkv
      obtain ⟨hmem, hpre⟩ := hkv
      rw [List.isPrefixOf_iff_prefix] at hpre
      obtain ⟨t, ht⟩ := hpre
      have hdrop : kv.1.data.drop pfx.length = t := by
        rw [← ht]
        exact List.drop_left pfx.data t
      rw [hdrop]
      have hk : pfx ++ String.mk t = kv.1 := by
        apply String.ext
        rw [String.data_append, ht]
      rw [hk]
      exact List.mem_map.mpr ⟨kv, hmem, rfl⟩
    · intro hx
      obtain ⟨kv, hkv, hk⟩ := List.mem_map.mp hx
      refine ⟨kv, ?_, ?_⟩
      · rw [List.mem_filter]
        refine ⟨hkv, ?_⟩
        rw [List.isPrefixOf_iff_prefix, hk, String.data_append]
        exact ⟨x.data, rfl⟩
      · show String.mk (kv.1.data.drop pfx.length) = x
        rw [hk, String.data_append]
        have hdx : (pfx.data ++ x.data).drop pfx.length = x.data :=
          List.drop_left pfx.data x.data
        rw [hdx]
  · intro hs
    subst hs
    simp

/-- Witness for C9's theorem on a concrete one-record store. -/
theorem c9_list_logins_sorted_witness :
    ∃ names, list_logins "/p/" [("/p/b", ⟨"x", "d", [], 1⟩)] =
        (.ok names, [("/p/b", ⟨"x", "d", [], 1⟩)]) ∧
      List.Pairwise (fun a b => strLe a b = true) names ∧
      (∀ x, x ∈ names ↔ ("/p/" ++ x) ∈ storeKeys [("/p/b", ⟨"x", "d", [], 1⟩)]) ∧
      ([("/p/b", ⟨"x", "d", [], 1⟩)] = ([] : Store) → names = []) :=
  c9_list_logins_sorted "/p/" [("/p/b", ⟨"x", "d", [], 1⟩)]

/-- C10: create does not validate the password argument: on a non-empty name
absent from the store, create with the empty string as password stores and
returns the empty string; any supplied password is returned as given (only
the omitted password triggers generation); update, in contrast, rejects an
empty password with Validation. -/
theorem c10_create_accepts_empty_password (pfx login : String) (r : Nat → Nat)
    (s : Store) (hl : login ≠ "") (hc : containsKey s (pfx ++ login) = false) :
    (create_login pfx s login (some "") r).1 = .ok "" ∧
    (∃ p, lookupParam (create_login pfx s login (some "") r).2 (pfx ++ login) =
      some p ∧ p.value = "") ∧
    (∀ q : String, (create_login pfx s login (some q) r).1 = .ok q) ∧
    (update_login pfx s login "").1 =
      .error (.validation "Password cannot be empty") := by
  refine ⟨?_, ?_, ?_, ?_⟩
  · rw [create_login_ok pfx s login (some "") r hl hc]
    rfl
  · rw [create_login_ok pfx s login (some "") r hl hc]
    exact ⟨⟨"", "Password for login: " ++ login,
      [("Type", "Password"), ("Login", login)], 1⟩, by simp [lookupParam], rfl⟩
  · intro q
    rw [create_login_ok pfx s login (some q) r hl hc]
    rfl
  · simp [update_login, hl]

/-- Witness for C10's theorem on a concrete store. -/
theorem c10_create_accepts_empty_password_witness :
    (create_login "/p/" [] "a" (some "") (fun k => k)).1 = .ok "" ∧
    (∃ p, lookupParam (create_login "/p/" [] "a" (some "") (fun k => k)).2
      ("/p/" ++ "a") = some p ∧ p.value = "") ∧
    (∀ q : String, (create_login "/p/" [] "a" (some q) (fun k => k)).1 = .ok q) ∧
    (update_login "/p/" [] "a" "").1 =
      .error (.validation "Password cannot be empty") :=
  c10_create_accepts_empty_password "/p/" "a" (fun k => k) [] (by decide) (by decide)
